import Mathlib

/-!
Verification of the GLnexus service core (`src/service.cc`): the allele
discovery engine (`discover_alleles`, `is_dna`) and the ordered concurrent
genotyping pipeline (`genotype_sites`).

The embedding is shallow.  Pure helpers of the source become Lean functions;
the sequential drain loop of `genotype_sites` becomes a fold over site
indices, with the scheduling nondeterminism of the worker pool captured by an
arbitrary cancellation assignment constrained by the temporal facts of the
loop (a task can observe the abort flag only if the drain set it at an
earlier index).  External collaborators (metadata directory, variant storage,
the per-site genotyper, the BCF sink) are parameters of the embedded
functions, as in the source where they are reached through interfaces.
-/

namespace GLnexus

/-! ## Ordered concurrent genotyping pipeline (`genotype_sites`)

`genotype_site` (the external per-site collaborator) is deterministic for a
fixed request, so a site's genuine outcome is modelled by `task : Nat →
TaskOut`.  Whether the worker task for site `i` observed the abort flag at
entry (and therefore returned `Status::Invalid()` without computing) depends
on real-time scheduling; this is modelled by `cancel : Nat → Bool` restricted
by `ValidSchedule`: the abort flag is raised only by the drain loop, during
drain step `j`, and drain step `j` completes before any task with index `> j`
that has not yet started, so a cancelled task at index `i` requires the flag
to have been raised within the first `i` drain steps.  `wOk i` tells whether
the `bcf_write` call for site `i` would succeed. -/

/-- Genuine outcome of `genotype_site` for one site: success (a BCF record
is produced) or failure. -/
inductive TaskOut where
  | ok
  | fail
deriving DecidableEq

/-- Errors surfaced by the `genotype_sites` drain loop. -/
inductive GErr where
  | genotype (i : Nat)
  | cancelled
  | ioWrite (i : Nat)
  | ioClose
deriving DecidableEq

/-- State of the drain loop: the recorded status `s` (`none` = OK), the
shared abort flag, and the indices successfully written to the sink. -/
structure DrainState where
  s : Option GErr
  abortFlag : Bool
  written : List Nat
deriving DecidableEq

/-- Status observed by the drain for task `i`: `Status::Invalid()` if the
task was cancelled, otherwise the genuine outcome of `genotype_site`. -/
def observedStatus (task : Nat → TaskOut) (cancel : Nat → Bool) (i : Nat) : Option GErr :=
  if cancel i then some GErr.cancelled
  else match task i with
    | TaskOut.ok => none
    | TaskOut.fail => some (GErr.genotype i)

/-- One iteration of the drain loop of `genotype_sites` (source lines
212-232): wait for task `i`; if everything is OK so far and the task
succeeded, write the record (recording an IOError if `bcf_write` fails); if
this is the first bad status, record it and raise the abort flag; otherwise
discard the record. -/
def drainStep (task : Nat → TaskOut) (cancel : Nat → Bool) (wOk : Nat → Bool)
    (st : DrainState) (i : Nat) : DrainState :=
  match st.s, observedStatus task cancel i with
  | none, none =>
      if wOk i then ⟨none, st.abortFlag, st.written ++ [i]⟩
      else ⟨some (GErr.ioWrite i), st.abortFlag, st.written⟩
  | none, some e => ⟨some e, true, st.written⟩
  | some e, _ => ⟨some e, st.abortFlag, st.written⟩

/-- The drain loop over sites `0..n-1`. -/
def drain (task : Nat → TaskOut) (cancel : Nat → Bool) (wOk : Nat → Bool) (n : Nat) :
    DrainState :=
  (List.range n).foldl (drainStep task cancel wOk) ⟨none, false, []⟩

/-- A cancellation assignment is realizable only if every cancelled task
started after the abort flag was raised, i.e. after a drain step with a
smaller index recorded the first error (drain step `i` begins only after
task `i` completed, so the flag must have been raised within the first `i`
steps). -/
def ValidSchedule (task : Nat → TaskOut) (cancel : Nat → Bool) (wOk : Nat → Bool) : Prop :=
  ∀ i, cancel i = true → (drain task cancel wOk i).abortFlag = true

/-- Return value of `genotype_sites` after the drain: the recorded error if
any, otherwise the result of closing the output file. -/
def genotype_sites (task : Nat → TaskOut) (cancel : Nat → Bool) (wOk : Nat → Bool)
    (closeOk : Bool) (n : Nat) : Option GErr :=
  match (drain task cancel wOk n).s with
  | some e => some e
  | none => if closeOk then none else some GErr.ioClose

/-- Site `i` went through cleanly: not cancelled, genotyping succeeded and
its record was written successfully. -/
def fineAt (task : Nat → TaskOut) (cancel : Nat → Bool) (wOk : Nat → Bool) (i : Nat) : Prop :=
  cancel i = false ∧ task i = TaskOut.ok ∧ wOk i = true

instance fineAt.instDecidable (task : Nat → TaskOut) (cancel : Nat → Bool) (wOk : Nat → Bool)
    (i : Nat) : Decidable (fineAt task cancel wOk i) :=
  inferInstanceAs (Decidable (cancel i = false ∧ task i = TaskOut.ok ∧ wOk i = true))

/-- Concrete inputs used by the closed witnesses below: three sites where the
second genotyping task fails, no task is cancelled, all writes succeed. -/
def taskW : Nat → TaskOut := fun i => if i = 1 then TaskOut.fail else TaskOut.ok

/-- A schedule in which no task observes the abort flag. -/
def cancelNone : Nat → Bool := fun _ => false

/-- All sink writes succeed. -/
def wAllOk : Nat → Bool := fun _ => true

/-- All genotyping tasks succeed. -/
def taskAllOk : Nat → TaskOut := fun _ => TaskOut.ok

/-- The sink write for site 1 fails; all others succeed. -/
def wFail1 : Nat → Bool := fun i => decide (i ≠ 1)

/-! ## Allele discovery (`discover_alleles`)

Value types follow `range` (contig id, begin, end) and `allele` (range +
DNA string) of the source.  `discovered_alleles` is `std::map<allele,
discovered_allele_info>`; it is embedded as an association list with unique
keys, with `std::map::insert`'s insert-if-absent semantics (`dalsInsert`).
`obs_counts` is a `vector<float>` tallied only by `+= 1.0` steps from `0.0`,
so every value it ever holds is an exact small natural number; it is
embedded as `Nat → Nat` with exact correspondence. -/

instance instDecEqExcept {ε α : Type} [DecidableEq ε] [DecidableEq α] :
    DecidableEq (Except ε α) := fun x y =>
  match x, y with
  | Except.ok u, Except.ok v =>
    if h : u = v then isTrue (by rw [h]) else isFalse (fun hh => h (Except.ok.inj hh))
  | Except.error u, Except.error v =>
    if h : u = v then isTrue (by rw [h]) else isFalse (fun hh => h (Except.error.inj hh))
  | Except.ok _, Except.error _ => isFalse (fun hh => Except.noConfusion hh)
  | Except.error _, Except.ok _ => isFalse (fun hh => Except.noConfusion hh)

/-- A genomic interval: contig id, begin and end coordinate (source type
`range`). -/
structure Rng where
  rid : Nat
  lo : Int
  hi : Int
deriving DecidableEq

/-- `range::operator<`: lexicographic by (rid, lo, hi). -/
def Rng.le (a b : Rng) : Prop :=
  a.rid < b.rid ∨ (a.rid = b.rid ∧ (a.lo < b.lo ∨ (a.lo = b.lo ∧ a.hi ≤ b.hi)))

instance Rng.le.instDecidable : DecidableRel Rng.le := fun a b =>
  inferInstanceAs (Decidable (a.rid < b.rid ∨
    (a.rid = b.rid ∧ (a.lo < b.lo ∨ (a.lo = b.lo ∧ a.hi ≤ b.hi)))))

/-- An allele: a range plus a DNA sequence (source type `allele`). -/
structure Allele where
  pos : Rng
  dna : String
deriving DecidableEq

/-- Source type `discovered_allele_info`: the reference flag and the
observation tally. -/
structure DAInfo where
  is_ref : Bool
  observation_count : Nat
deriving DecidableEq

/-- `discovered_alleles = std::map<allele, discovered_allele_info>`,
embedded as an association list with unique keys. -/
abbrev DiscoveredAlleles : Type := List (Allele × DAInfo)

/-- `std::map::find`: the info bound to key `k`, if any. -/
def lookupA (m : DiscoveredAlleles) (k : Allele) : Option DAInfo :=
  (m.find? (fun kv => decide (kv.1 = k))).map Prod.snd

/-- `std::map::insert`: inserts `(k, v)` only when `k` is absent; an existing
binding for `k` is left unchanged. -/
def dalsInsert (m : DiscoveredAlleles) (k : Allele) (v : DAInfo) : DiscoveredAlleles :=
  match lookupA m k with
  | some _ => m
  | none => m ++ [(k, v)]

/-- Replace the value bound to key `k` (used by the merge). -/
def setA (m : DiscoveredAlleles) (k : Allele) (v : DAInfo) : DiscoveredAlleles :=
  m.map (fun kv => if kv.1 = k then (k, v) else kv)

/-- Errors of the discovery path (source `Status` values). -/
inductive DiscErr where
  | lookup (msg : String)
  | storage (dataset : String)
  | invalidRef (dataset : String) (dna : String) (pos : Rng)
  | inconsistentRef (pos : Rng) (refs : List String)
  | noRef (pos : Rng)
deriving DecidableEq

/-- One flattened genotype-array entry as decoded by the source loop: either
the `bcf_int32_vector_end` sentinel, or a call whose `bcf_gt_allele` decoded
allele index is `al` (missing calls decode to `-1`). -/
inductive GTEntry where
  | vecEnd
  | call (al : Int)
deriving DecidableEq

/-- A BCF record as consumed by `discover_alleles`: its range, allele list
(`d.allele[0]` = `ref`, `d.allele[1..]` = `alts`), and the per-sample
genotype call entries (`bcf_get_genotypes` returns their concatenation). -/
structure BcfRecord where
  pos : Rng
  ref : String
  alts : List String
  samples : List (String × List GTEntry)
deriving DecidableEq

/-- `record->n_allele`. -/
def BcfRecord.n_allele (r : BcfRecord) : Nat := r.alts.length + 1

/-- The flattened genotype array (`bcf_get_genotypes`): all samples'
entries, in sample order. -/
def BcfRecord.gtFlat (r : BcfRecord) : List GTEntry :=
  (r.samples.map Prod.snd).flatten

/-- `is_dna` (source lines 36-39): every character is one of A, C, G, T.
Note `all_of` on an empty string is `true`; the emptiness check is separate
in the callers. -/
def is_dna (str : String) : Bool :=
  str.data.all (fun ch => ch == 'A' || ch == 'C' || ch == 'G' || ch == 'T')

/-- `transform(begin, end, begin, ::toupper)`: per-character ASCII
uppercasing.  (`String.map Char.toUpper`, written via the character list so
that it evaluates by kernel reduction.) -/
def strToUpper (s : String) : String := ⟨s.data.map Char.toUpper⟩

/-- The qualification test applied to each allele sequence (source lines 85
and 95): non-empty and all-DNA after uppercasing. -/
def qualifiesDNA (s : String) : Bool := decide (0 < s.length) && is_dna s

/-- Pointwise update of the `obs_counts` array. -/
def upd (f : Nat → Nat) (i : Nat) (v : Nat) : Nat → Nat :=
  fun j => if j = i then v else f j

/-- One step of the hard-call tally loop (source lines 67-74): a
`vector_end` sentinel is skipped; a call whose decoded allele index is in
`[0, n_allele)` increments that allele's count by one; anything else
(missing calls decode to `-1`) contributes nothing. -/
def gtStep (nAllele : Nat) (obs : Nat → Nat) (e : GTEntry) : Nat → Nat :=
  match e with
  | GTEntry.vecEnd => obs
  | GTEntry.call a =>
    if 0 ≤ a ∧ a < (nAllele : Int) then upd obs a.toNat (obs a.toNat + 1) else obs

/-- `obs_counts` for a record: fold of `gtStep` over the flattened genotype
array, starting from the all-zero vector. -/
def obsCounts (rec : BcfRecord) : Nat → Nat :=
  rec.gtFlat.foldl (gtStep rec.n_allele) (fun _ => 0)

/-- Number of entries of `l` that are a call of allele index `al`. -/
def countCall (l : List GTEntry) (al : Nat) : Nat :=
  (l.filter (fun e => decide (e = GTEntry.call (al : Int)))).length

/-- The alt-allele loop of `discover_alleles` (source lines 81-90),
carried out with the running allele index `i` (the loop runs `i = 1 ..
n_allele-1`): each alt whose uppercased sequence qualifies is inserted with
`is_ref = false` and its tally, and sets `any_alt`. -/
def altLoop (rng : Rng) (obs : Nat → Nat) :
    Nat → List String → DiscoveredAlleles → Bool → DiscoveredAlleles × Bool
  | _, [], acc, b => (acc, b)
  | i, a :: rest, acc, b =>
    if qualifiesDNA (strToUpper a) then
      altLoop rng obs (i + 1) rest (dalsInsert acc ⟨rng, strToUpper a⟩ ⟨false, obs i⟩) true
    else
      altLoop rng obs (i + 1) rest acc b

/-- The first qualifying entry of the alt loop, starting at index `i`, that
would insert key `k`; used to characterize `altLoop`'s lookups. -/
def altFind (rng : Rng) (obs : Nat → Nat) :
    Nat → List String → Allele → Option DAInfo
  | _, [], _ => none
  | i, a :: rest, k =>
    if qualifiesDNA (strToUpper a) ∧ Allele.mk rng (strToUpper a) = k then
      some ⟨false, obs i⟩
    else altFind rng obs (i + 1) rest k

/-- The per-record body of `discover_alleles` (source lines 57-105): tally
hard calls, insert qualifying alt alleles, then handle the reference allele
(insert it when some alt qualified; fail with an invalid-reference error
naming the dataset, the uppercased sequence and the query position when it
does not qualify). -/
def processRecord (dataset : String) (qpos : Rng) (dsals : DiscoveredAlleles)
    (rec : BcfRecord) : Except DiscErr DiscoveredAlleles :=
  let obs := obsCounts rec
  let rng := rec.pos
  let folded := altLoop rng obs 1 rec.alts dsals false
  let refdna := strToUpper rec.ref
  if qualifiesDNA refdna then
    Except.ok (if folded.2 then dalsInsert folded.1 ⟨rng, refdna⟩ ⟨true, obs 0⟩ else folded.1)
  else Except.error (DiscErr.invalidRef dataset refdna qpos)

/-- The per-dataset record loop: fold `processRecord` over the dataset's
records, starting from an empty per-dataset accumulator (`dsals`). -/
def processDataset (dataset : String) (qpos : Rng) (records : List BcfRecord) :
    Except DiscErr DiscoveredAlleles :=
  records.foldlM (fun dsals rec => processRecord dataset qpos dsals rec) ([] : DiscoveredAlleles)

/-- Modelled from the spec: `merge_discovered_alleles` lives in
`alleles.cc`, which is not among the provided sources.  Spec section 4.1: for
each allele of `src`, insert it into `dest` if absent; if present, combine by
summing the observation counts (the `is_ref` flag of the existing entry is
kept; the pairwise step is permissive and correctness is judged by the
global post-merge check). -/
def merge_discovered_alleles (src dest : DiscoveredAlleles) : DiscoveredAlleles :=
  src.foldl (fun acc kv =>
    match lookupA acc kv.1 with
    | none => acc ++ [kv]
    | some w => setA acc kv.1 ⟨w.is_ref, w.observation_count + kv.2.observation_count⟩) dest

/-- The ranges mentioned by the accumulated set (with multiplicity; the
source inserts them into a `std::set<range>`). -/
def rangesOf (ans : DiscoveredAlleles) : List Rng :=
  ans.map (fun kv => kv.1.pos)

/-- The sequences flagged `is_ref` at range `rng` (the `refs` vector of the
post-merge check, source lines 121-130). -/
def refSeqsAt (ans : DiscoveredAlleles) (rng : Rng) : List String :=
  (ans.filter
    (fun kv => decide (kv.1.pos = rng) && kv.2.is_ref)).map (fun kv => kv.1.dna)

/-- The per-range scan of the post-merge check (source lines 120-141): for
each range in order, fail if more than one distinct sequence is flagged
`is_ref` (naming range and sequences), or if none is. -/
def refcheckGo (ans : DiscoveredAlleles) : List Rng → Option DiscErr
  | [] => none
  | rng :: rest =>
    let refs := refSeqsAt ans rng
    if refs.length > 1 then some (DiscErr.inconsistentRef rng refs)
    else if refs.length = 0 then some (DiscErr.noRef rng)
    else refcheckGo ans rest

/-- The ex-post-facto check of `discover_alleles` (source lines 111-141):
scan the distinct ranges of the accumulated set in `range::operator<` order
(`std::set<range>` iteration order). -/
def refcheck (ans : DiscoveredAlleles) : Option DiscErr :=
  refcheckGo ans (List.insertionSort Rng.le (rangesOf ans).dedup)

/-- The dataset loop of `discover_alleles` (source lines 49-109) followed by
the post-merge check: fetch each dataset's records, process them into a
per-dataset accumulator, merge it into `ans`; abort with the first error.
The second component is the final state of the caller-visible out-parameter
`ans`, which the source mutates in place. -/
def discoverLoop (fetch : String → Rng → Except DiscErr (List BcfRecord)) (qpos : Rng) :
    List String → DiscoveredAlleles → Option DiscErr × DiscoveredAlleles
  | [], ans => (refcheck ans, ans)
  | d :: ds, ans =>
    match fetch d qpos with
    | Except.error e => (some e, ans)
    | Except.ok records =>
      match processDataset d qpos records with
      | Except.error e => (some e, ans)
      | Except.ok dsals => discoverLoop fetch qpos ds (merge_discovered_alleles dsals ans)

/-- `Service::discover_alleles` (source lines 41-144): resolve the sample
set, clear `ans`, run the dataset loop and the post-merge check.  The result
pair is (returned status error if any, final state of the out-parameter
`ans`, whose initial caller-supplied value is `ans0`). -/
def discover_alleles (resolve : String → Except DiscErr (List String × List String))
    (fetch : String → Rng → Except DiscErr (List BcfRecord))
    (sampleset : String) (qpos : Rng) (ans0 : DiscoveredAlleles) :
    Option DiscErr × DiscoveredAlleles :=
  match resolve sampleset with
  | Except.error e => (some e, ans0)
  | Except.ok (_samples, datasets) => discoverLoop fetch qpos datasets []

/-! Concrete discovery inputs used by the closed witnesses and
counterexamples below. -/

/-- A sample range. -/
def rngX : Rng := ⟨0, 100, 101⟩

/-- A record with reference A, one alt C, one diploid sample calling (0,1):
tallies A=1, C=1. -/
def recX : BcfRecord := ⟨rngX, "A", ["C"], [("s1", [GTEntry.call 0, GTEntry.call 1])]⟩

/-- A second record at the same range with the same alleles, one diploid
sample calling (1,1): tallies A=0, C=2. -/
def recY2 : BcfRecord := ⟨rngX, "A", ["C"], [("s1", [GTEntry.call 1, GTEntry.call 1])]⟩

/-- Storage in which dataset d1 holds `recX` and every other dataset fails
to fetch. -/
def fetchX (d : String) (_q : Rng) : Except DiscErr (List BcfRecord) :=
  if d = "d1" then Except.ok [recX] else Except.error (DiscErr.storage d)

/-- Metadata resolving any sampleset to datasets d1 and d2. -/
def resolveX (_ss : String) : Except DiscErr (List String × List String) :=
  Except.ok (["s1"], ["d1", "d2"])

/-- Metadata resolving any sampleset to dataset d1 only, sample list s1. -/
def resolveA (_ss : String) : Except DiscErr (List String × List String) :=
  Except.ok (["s1"], ["d1"])

/-- Metadata resolving any sampleset to dataset d1 only, but with a larger
sample list. -/
def resolveB (_ss : String) : Except DiscErr (List String × List String) :=
  Except.ok (["s1", "s2", "s3"], ["d1"])

/-- The C8 example record: reference A, one alt C, two diploid samples with
hard calls (0,1) and (1,1). -/
def rec8 : BcfRecord :=
  ⟨rngX, "A", ["C"],
   [("s1", [GTEntry.call 0, GTEntry.call 1]), ("s2", [GTEntry.call 1, GTEntry.call 1])]⟩

/-- A record with one qualifying alt and one symbolic alt. -/
def rec6 : BcfRecord :=
  ⟨rngX, "A", ["C", "<NON_REF>"], [("s1", [GTEntry.call 0, GTEntry.call 1])]⟩

/-- A record whose reference sequence is not pure DNA. -/
def rec7a : BcfRecord := ⟨rngX, "N", ["C"], [("s1", [GTEntry.call 0, GTEntry.call 1])]⟩

/-- Storage in which dataset d1 holds the clean record `recX`, dataset d3
holds `rec7a` (whose reference sequence N makes record processing fail),
and every other dataset fails to fetch. -/
def fetchY (d : String) (_q : Rng) : Except DiscErr (List BcfRecord) :=
  if d = "d1" then Except.ok [recX]
  else if d = "d3" then Except.ok [rec7a]
  else Except.error (DiscErr.storage d)

/-- A record with a valid reference but only a symbolic alt. -/
def rec7c : BcfRecord := ⟨rngX, "A", ["<NON_REF>"], [("s1", [GTEntry.call 0, GTEntry.call 0])]⟩

/-- A per-dataset accumulator that already binds allele (rngX, C). -/
def ansC4 : DiscoveredAlleles := [(⟨rngX, "C"⟩, ⟨false, 99⟩)]

/-- An accumulated set with two distinct sequences flagged is_ref at rngX. -/
def ansMulti : DiscoveredAlleles :=
  [(⟨rngX, "A"⟩, ⟨true, 1⟩), (⟨rngX, "G"⟩, ⟨true, 1⟩), (⟨rngX, "C"⟩, ⟨false, 2⟩)]

/-- An accumulated set with no sequence flagged is_ref at rngX. -/
def ansNoRef : DiscoveredAlleles := [(⟨rngX, "C"⟩, ⟨false, 2⟩)]

/-- A consistent accumulated set: exactly one is_ref sequence at rngX. -/
def ansGood : DiscoveredAlleles :=
  [(⟨rngX, "A"⟩, ⟨true, 1⟩), (⟨rngX, "C"⟩, ⟨false, 2⟩)]

end GLnexus

namespace GLnexus

theorem drain_zero (task : Nat → TaskOut) (cancel : Nat → Bool) (wOk : Nat → Bool) :
    drain task cancel wOk 0 = ⟨none, false, []⟩ := rfl

theorem drain_succ (task : Nat → TaskOut) (cancel : Nat → Bool) (wOk : Nat → Bool) (n : Nat) :
    drain task cancel wOk (n + 1) =
      drainStep task cancel wOk (drain task cancel wOk n) n := by
  unfold drain
  rw [List.range_succ, List.foldl_append]
  rfl

theorem drainStep_stuck (task : Nat → TaskOut) (cancel : Nat → Bool) (wOk : Nat → Bool)
    (st : DrainState) (i : Nat) (e : GErr) (h : st.s = some e) :
    drainStep task cancel wOk st i = st := by
  cases st with
  | mk s ab w =>
    simp only at h
    subst h
    rfl

theorem drain_stuck (task : Nat → TaskOut) (cancel : Nat → Bool) (wOk : Nat → Bool)
    (n : Nat) (e : GErr) (h : (drain task cancel wOk n).s = some e) :
    ∀ k, drain task cancel wOk (n + k) = drain task cancel wOk n := by
  intro k
  induction k with
  | zero => rfl
  | succ k ih =>
    have : n + (k + 1) = (n + k) + 1 := by omega
    rw [this, drain_succ, ih, drainStep_stuck task cancel wOk _ _ e h]

theorem drain_all_fine (task : Nat → TaskOut) (cancel : Nat → Bool) (wOk : Nat → Bool)
    (n : Nat) (h : ∀ i, i < n → fineAt task cancel wOk i) :
    drain task cancel wOk n = ⟨none, false, List.range n⟩ := by
  induction n with
  | zero => rfl
  | succ n ih =>
    have hn := h n (by omega)
    obtain ⟨hc, ht, hw⟩ := hn
    rw [drain_succ, ih (fun i hi => h i (by omega))]
    simp only [drainStep, observedStatus, hc, ht, hw]
    simp [List.range_succ]

/-- After all clean steps up to the first non-clean index `m` (with a valid
schedule, `m` cannot be a cancellation), the drain records the genuine
failure of site `m` — either the genotyping failure or the write failure —
and never changes afterwards. -/
theorem drain_spec (task : Nat → TaskOut) (cancel : Nat → Bool) (wOk : Nat → Bool) (n : Nat)
    (hv : ValidSchedule task cancel wOk)
    (hex : ∃ i, i < n ∧ ¬ fineAt task cancel wOk i) :
    ∃ m, m < n ∧ (∀ j, j < m → fineAt task cancel wOk j) ∧ cancel m = false ∧
      (task m = TaskOut.fail ∨ wOk m = false) ∧
      drain task cancel wOk n =
        ⟨some (if task m = TaskOut.fail then GErr.genotype m else GErr.ioWrite m),
         decide (task m = TaskOut.fail), List.range m⟩ := by
  have hP : ∃ i, i < n ∧ ¬ fineAt task cancel wOk i := hex
  set m := Nat.find hP with hmdef
  have hm : m < n ∧ ¬ fineAt task cancel wOk m := Nat.find_spec hP
  have hfine : ∀ j, j < m → fineAt task cancel wOk j := by
    intro j hj
    have hjn : j < n := by omega
    by_contra hnf
    exact Nat.find_min hP hj ⟨hjn, hnf⟩
  have hdm : drain task cancel wOk m = ⟨none, false, List.range m⟩ :=
    drain_all_fine task cancel wOk m hfine
  have hcm : cancel m = false := by
    cases hcm' : cancel m with
    | false => rfl
    | true =>
      have := hv m hcm'
      rw [hdm] at this
      simp at this
  have hbad : task m = TaskOut.fail ∨ wOk m = false := by
    have hnf := hm.2
    unfold fineAt at hnf
    push_neg at hnf
    cases htm : task m with
    | fail => exact Or.inl rfl
    | ok =>
      refine Or.inr ?_
      have hw := hnf hcm htm
      cases hwm : wOk m with
      | false => rfl
      | true => exact absurd hwm hw
  have hstep : drain task cancel wOk (m + 1) =
      ⟨some (if task m = TaskOut.fail then GErr.genotype m else GErr.ioWrite m),
       decide (task m = TaskOut.fail), List.range m⟩ := by
    rw [drain_succ, hdm]
    cases htm : task m with
    | fail =>
      simp only [drainStep, observedStatus, hcm, htm]
      simp
    | ok =>
      have hwm : wOk m = false := by
        cases hbad with
        | inl h => rw [htm] at h; exact absurd h (by simp)
        | inr h => exact h
      simp only [drainStep, observedStatus, hcm, htm, hwm]
      simp
  refine ⟨m, hm.1, hfine, hcm, hbad, ?_⟩
  have hmn : m < n := hm.1
  have : n = (m + 1) + (n - (m + 1)) := by omega
  rw [this, drain_stuck task cancel wOk (m + 1) _ (by rw [hstep]) (n - (m + 1)), hstep]

/-- Claim C1: for every call to `genotype_sites` in which at least one
site's genotyping task genuinely fails, the returned error is the failure
belonging to the lowest site index that actually failed (a genuine
genotyping failure or, at a lower index, a sink write failure), and this is
independent of the worker schedule: the index `m` and the error are
determined by `task` and `wOk` alone, for every valid cancellation
assignment.  A cancellation outcome is never the returned error. -/
theorem genotype_sites_lowest_failure (task : Nat → TaskOut) (cancel : Nat → Bool)
    (wOk : Nat → Bool) (closeOk : Bool) (n : Nat)
    (hv : ValidSchedule task cancel wOk)
    (hf : ∃ i, i < n ∧ task i = TaskOut.fail) :
    ∃ m, m < n ∧ (task m = TaskOut.fail ∨ wOk m = false) ∧
      (∀ j, j < m → task j = TaskOut.ok ∧ wOk j = true) ∧
      genotype_sites task cancel wOk closeOk n =
        some (if task m = TaskOut.fail then GErr.genotype m else GErr.ioWrite m) ∧
      genotype_sites task cancel wOk closeOk n ≠ some GErr.cancelled := by
  obtain ⟨i, hi, hti⟩ := hf
  have hex : ∃ j, j < n ∧ ¬ fineAt task cancel wOk j := by
    refine ⟨i, hi, ?_⟩
    intro hfi
    rw [hfi.2.1] at hti
    exact TaskOut.noConfusion hti
  obtain ⟨m, hmn, hfine, hcm, hbad, hdrain⟩ := drain_spec task cancel wOk n hv hex
  have hgs : genotype_sites task cancel wOk closeOk n =
      some (if task m = TaskOut.fail then GErr.genotype m else GErr.ioWrite m) := by
    unfold genotype_sites
    rw [hdrain]
  refine ⟨m, hmn, hbad, fun j hj => ⟨(hfine j hj).2.1, (hfine j hj).2.2⟩, hgs, ?_⟩
  rw [hgs]
  split <;> simp

/-- Closed witness for `genotype_sites_lowest_failure` at a concrete input:
three sites, the task of site 1 fails, no cancellations, all writes
succeed. -/
theorem genotype_sites_lowest_failure_witness :
    ∃ m, m < 3 ∧ (taskW m = TaskOut.fail ∨ wAllOk m = false) ∧
      (∀ j, j < m → taskW j = TaskOut.ok ∧ wAllOk j = true) ∧
      genotype_sites taskW cancelNone wAllOk true 3 =
        some (if taskW m = TaskOut.fail then GErr.genotype m else GErr.ioWrite m) ∧
      genotype_sites taskW cancelNone wAllOk true 3 ≠ some GErr.cancelled :=
  genotype_sites_lowest_failure taskW cancelNone wAllOk true 3
    (by intro i h; exact Bool.noConfusion h) ⟨1, by decide, by decide⟩

/-- Claim C2: for every call of the `genotype_sites` drain over `n` sites
with a realizable schedule, the indices written to the sink form exactly
`List.range k` for some `k ≤ n` — a prefix of the site indices in strictly
ascending order, each of whose tasks succeeded and whose write succeeded —
regardless of the order in which worker tasks completed. -/
theorem genotype_sites_ordered_output (task : Nat → TaskOut) (cancel : Nat → Bool)
    (wOk : Nat → Bool) (n : Nat) (hv : ValidSchedule task cancel wOk) :
    ∃ k, k ≤ n ∧ (drain task cancel wOk n).written = List.range k ∧
      ∀ i, i < k → task i = TaskOut.ok ∧ wOk i = true := by
  classical
  by_cases hall : ∀ i, i < n → fineAt task cancel wOk i
  · refine ⟨n, le_refl n, ?_, fun i hi => ⟨(hall i hi).2.1, (hall i hi).2.2⟩⟩
    rw [drain_all_fine task cancel wOk n hall]
  · push_neg at hall
    obtain ⟨i, hi, hnf⟩ := hall
    obtain ⟨m, hmn, hfine, _, _, hdrain⟩ :=
      drain_spec task cancel wOk n hv ⟨i, hi, hnf⟩
    refine ⟨m, by omega, ?_, fun j hj => ⟨(hfine j hj).2.1, (hfine j hj).2.2⟩⟩
    rw [hdrain]

/-- Closed witness for `genotype_sites_ordered_output` at a concrete input:
three sites, the task of site 1 fails, so exactly site 0 is written. -/
theorem genotype_sites_ordered_output_witness :
    ∃ k, k ≤ 3 ∧ (drain taskW cancelNone wAllOk 3).written = List.range k ∧
      ∀ i, i < k → taskW i = TaskOut.ok ∧ wAllOk i = true :=
  genotype_sites_ordered_output taskW cancelNone wAllOk 3
    (by intro i h; exact Bool.noConfusion h)

theorem drain_write_failure_aux (task : Nat → TaskOut) (cancel : Nat → Bool)
    (wOk : Nat → Bool) (hv : ValidSchedule task cancel wOk) (m : Nat)
    (hfine : ∀ j, j < m → task j = TaskOut.ok ∧ wOk j = true)
    (hok : task m = TaskOut.ok) (hw : wOk m = false) :
    ∀ n, (drain task cancel wOk n).abortFlag = false ∧
      (n ≤ m → drain task cancel wOk n = ⟨none, false, List.range n⟩) ∧
      (m < n → drain task cancel wOk n = ⟨some (GErr.ioWrite m), false, List.range m⟩) := by
  intro n
  induction n with
  | zero => exact ⟨rfl, fun _ => rfl, fun h => absurd h (by omega)⟩
  | succ n ih =>
    have hcn : cancel n = false := by
      cases hcn' : cancel n with
      | false => rfl
      | true =>
        have h1 := hv n hcn'
        rw [ih.1] at h1
        exact Bool.noConfusion h1
    rcases Nat.lt_trichotomy n m with hlt | heq | hgt
    · have hdn := ih.2.1 (by omega)
      have hfn := hfine n hlt
      have hstep : drain task cancel wOk (n + 1) = ⟨none, false, List.range (n + 1)⟩ := by
        rw [drain_succ, hdn]
        simp only [drainStep, observedStatus, hcn, hfn.1, hfn.2]
        simp [List.range_succ]
      exact ⟨by rw [hstep], fun _ => hstep, fun h => absurd h (by omega)⟩
    · subst heq
      have hdn := ih.2.1 (le_refl n)
      have hstep : drain task cancel wOk (n + 1) =
          ⟨some (GErr.ioWrite n), false, List.range n⟩ := by
        rw [drain_succ, hdn]
        simp only [drainStep, observedStatus, hcn, hok, hw]
        simp
      exact ⟨by rw [hstep], fun h => absurd h (by omega), fun _ => hstep⟩
    · have hdn := ih.2.2 hgt
      have hstep : drain task cancel wOk (n + 1) =
          ⟨some (GErr.ioWrite m), false, List.range m⟩ := by
        rw [drain_succ, hdn, drainStep_stuck task cancel wOk _ _ (GErr.ioWrite m) rfl]
      exact ⟨by rw [hstep], fun h => absurd h (by omega), fun _ => hstep⟩

/-- Claim C9: when the first trouble in the pipeline is a sink write
(`bcf_write`) failure at site `m` (every earlier site was computed and
written cleanly and site `m`'s own task succeeded), that IOError is the
returned error, but the shared abort flag is never raised; consequently no
task is ever cancelled — every site's task still invokes the per-site
genotyping collaborator in full — while the records of sites after `m` are
discarded without being written. -/
theorem genotype_sites_write_failure (task : Nat → TaskOut) (cancel : Nat → Bool)
    (wOk : Nat → Bool) (closeOk : Bool) (n m : Nat)
    (hv : ValidSchedule task cancel wOk) (hm : m < n)
    (hfine : ∀ j, j < m → task j = TaskOut.ok ∧ wOk j = true)
    (hok : task m = TaskOut.ok) (hw : wOk m = false) :
    genotype_sites task cancel wOk closeOk n = some (GErr.ioWrite m) ∧
    (drain task cancel wOk n).abortFlag = false ∧
    (∀ j, cancel j = false) ∧
    (drain task cancel wOk n).written = List.range m := by
  have aux := drain_write_failure_aux task cancel wOk hv m hfine hok hw
  have hdn := (aux n).2.2 hm
  refine ⟨?_, by rw [hdn], ?_, by rw [hdn]⟩
  · unfold genotype_sites
    rw [hdn]
  · intro j
    cases hcj : cancel j with
    | false => rfl
    | true =>
      have h1 := hv j hcj
      have h2 := (aux j).1
      rw [h2] at h1
      exact Bool.noConfusion h1

/-- Closed witness for `genotype_sites_write_failure` at a concrete input:
three sites, all tasks succeed, the write of site 1 fails. -/
theorem genotype_sites_write_failure_witness :
    genotype_sites taskAllOk cancelNone wFail1 true 3 = some (GErr.ioWrite 1) ∧
    (drain taskAllOk cancelNone wFail1 3).abortFlag = false ∧
    (∀ j, cancelNone j = false) ∧
    (drain taskAllOk cancelNone wFail1 3).written = List.range 1 :=
  genotype_sites_write_failure taskAllOk cancelNone wFail1 true 3 1
    (by intro i h; exact Bool.noConfusion h) (by decide)
    (by intro j hj; have hj0 : j = 0 := (by omega); exact ⟨rfl, by rw [hj0]; decide⟩)
    rfl (by decide)

/-! ### Association-list map lemmas -/

theorem lookupA_some_append (m l2 : DiscoveredAlleles) (k : Allele) (w : DAInfo)
    (h : lookupA m k = some w) : lookupA (m ++ l2) k = some w := by
  unfold lookupA at h ⊢
  rw [List.find?_append]
  cases hf : m.find? (fun kv => decide (kv.1 = k)) with
  | none => rw [hf] at h; simp at h
  | some kv =>
    rw [hf] at h
    simp at h
    simp [Option.or, h]

theorem lookupA_none_append_single (m : DiscoveredAlleles) (k : Allele) (v : DAInfo)
    (h : lookupA m k = none) : lookupA (m ++ [(k, v)]) k = some v := by
  unfold lookupA at h ⊢
  rw [List.find?_append]
  cases hf : m.find? (fun kv => decide (kv.1 = k)) with
  | none => simp [Option.or, List.find?]
  | some kv => rw [hf] at h; simp at h

theorem lookupA_ne_append_single (m : DiscoveredAlleles) (k k' : Allele) (v : DAInfo)
    (h : k' ≠ k) : lookupA (m ++ [(k, v)]) k' = lookupA m k' := by
  unfold lookupA
  rw [List.find?_append]
  cases hf : m.find? (fun kv => decide (kv.1 = k')) with
  | none =>
    have : List.find? (fun kv => decide (kv.1 = k')) [(k, v)] = none := by
      simp [List.find?, Ne.symm h]
    simp [Option.or, this]
  | some kv => simp [Option.or]

theorem lookupA_insert_fresh (m : DiscoveredAlleles) (k : Allele) (v : DAInfo)
    (h : lookupA m k = none) : lookupA (dalsInsert m k v) k = some v := by
  unfold dalsInsert
  rw [h]
  exact lookupA_none_append_single m k v h

theorem lookupA_insert_preserve (m : DiscoveredAlleles) (k k' : Allele) (v w : DAInfo)
    (h : lookupA m k' = some w) : lookupA (dalsInsert m k v) k' = some w := by
  unfold dalsInsert
  cases hk : lookupA m k with
  | some _ => exact h
  | none => exact lookupA_some_append m [(k, v)] k' w h

theorem lookupA_insert_ne (m : DiscoveredAlleles) (k k' : Allele) (v : DAInfo)
    (h : k' ≠ k) : lookupA (dalsInsert m k v) k' = lookupA m k' := by
  unfold dalsInsert
  cases hk : lookupA m k with
  | some _ => rfl
  | none => exact lookupA_ne_append_single m k k' v h

theorem mem_dalsInsert (m : DiscoveredAlleles) (k : Allele) (v : DAInfo)
    (kv : Allele × DAInfo) (h : kv ∈ dalsInsert m k v) : kv ∈ m ∨ kv = (k, v) := by
  unfold dalsInsert at h
  cases hk : lookupA m k with
  | some _ => rw [hk] at h; exact Or.inl h
  | none =>
    rw [hk] at h
    rcases List.mem_append.mp h with hm | hs
    · exact Or.inl hm
    · simp at hs
      exact Or.inr hs

/-! ### Alt-allele loop characterization -/

theorem altLoop_cons_pos (rng : Rng) (obs : Nat → Nat) (a : String) (rest : List String)
    (i : Nat) (acc : DiscoveredAlleles) (b : Bool)
    (hq : qualifiesDNA (strToUpper a) = true) :
    altLoop rng obs i (a :: rest) acc b =
      altLoop rng obs (i + 1) rest (dalsInsert acc ⟨rng, strToUpper a⟩ ⟨false, obs i⟩) true := by
  simp only [altLoop]
  rw [if_pos hq]

theorem altLoop_cons_neg (rng : Rng) (obs : Nat → Nat) (a : String) (rest : List String)
    (i : Nat) (acc : DiscoveredAlleles) (b : Bool)
    (hq : qualifiesDNA (strToUpper a) = false) :
    altLoop rng obs i (a :: rest) acc b = altLoop rng obs (i + 1) rest acc b := by
  simp only [altLoop]
  rw [if_neg (by simp [hq])]

theorem altFind_cons_pos (rng : Rng) (obs : Nat → Nat) (a : String) (rest : List String)
    (i : Nat) (k : Allele)
    (h : qualifiesDNA (strToUpper a) = true ∧ Allele.mk rng (strToUpper a) = k) :
    altFind rng obs i (a :: rest) k = some ⟨false, obs i⟩ := by
  simp only [altFind]
  rw [if_pos h]

theorem altFind_cons_neg (rng : Rng) (obs : Nat → Nat) (a : String) (rest : List String)
    (i : Nat) (k : Allele)
    (h : ¬ (qualifiesDNA (strToUpper a) = true ∧ Allele.mk rng (strToUpper a) = k)) :
    altFind rng obs i (a :: rest) k = altFind rng obs (i + 1) rest k := by
  simp only [altFind]
  rw [if_neg h]

theorem altLoop_lookup (rng : Rng) (obs : Nat → Nat) :
    ∀ (rest : List String) (i : Nat) (acc : DiscoveredAlleles) (b : Bool) (k : Allele),
    lookupA (altLoop rng obs i rest acc b).1 k =
      (lookupA acc k).or (altFind rng obs i rest k) := by
  intro rest
  induction rest with
  | nil =>
    intro i acc b k
    simp only [altLoop, altFind]
    cases lookupA acc k <;> rfl
  | cons a rest ih =>
    intro i acc b k
    cases hq : qualifiesDNA (strToUpper a) with
    | true =>
      rw [altLoop_cons_pos rng obs a rest i acc b hq, ih]
      by_cases hk : Allele.mk rng (strToUpper a) = k
      · subst hk
        rw [altFind_cons_pos rng obs a rest i _ ⟨hq, rfl⟩]
        cases hacc : lookupA acc ⟨rng, strToUpper a⟩ with
        | some w =>
          rw [lookupA_insert_preserve acc _ _ _ w hacc]
          rfl
        | none =>
          rw [lookupA_insert_fresh acc _ _ hacc]
          rfl
      · rw [altFind_cons_neg rng obs a rest i k (fun hh => hk hh.2),
            lookupA_insert_ne acc _ k _ (fun hh => hk hh.symm)]
    | false =>
      rw [altLoop_cons_neg rng obs a rest i acc b hq, ih,
          altFind_cons_neg rng obs a rest i k
            (fun hh => by rw [hq] at hh; exact Bool.noConfusion hh.1)]

theorem altLoop_flag (rng : Rng) (obs : Nat → Nat) :
    ∀ (rest : List String) (i : Nat) (acc : DiscoveredAlleles) (b : Bool),
    (altLoop rng obs i rest acc b).2 =
      (b || rest.any (fun a => qualifiesDNA (strToUpper a))) := by
  intro rest
  induction rest with
  | nil => intro i acc b; simp [altLoop]
  | cons a rest ih =>
    intro i acc b
    cases hq : qualifiesDNA (strToUpper a) with
    | true =>
      rw [altLoop_cons_pos rng obs a rest i acc b hq, ih]
      simp [hq]
    | false =>
      rw [altLoop_cons_neg rng obs a rest i acc b hq, ih]
      simp [hq]

theorem altLoop_mem (rng : Rng) (obs : Nat → Nat) :
    ∀ (rest : List String) (i : Nat) (acc : DiscoveredAlleles) (b : Bool)
      (kv : Allele × DAInfo), kv ∈ (altLoop rng obs i rest acc b).1 →
      kv ∈ acc ∨ (qualifiesDNA kv.1.dna = true ∧ kv.1.pos = rng ∧ kv.2.is_ref = false) := by
  intro rest
  induction rest with
  | nil => intro i acc b kv h; exact Or.inl h
  | cons a rest ih =>
    intro i acc b kv h
    cases hq : qualifiesDNA (strToUpper a) with
    | true =>
      rw [altLoop_cons_pos rng obs a rest i acc b hq] at h
      rcases ih (i + 1) _ true kv h with hacc | hnew
      · rcases mem_dalsInsert acc _ _ kv hacc with hm | he
        · exact Or.inl hm
        · refine Or.inr ?_
          rw [he]
          exact ⟨hq, rfl, rfl⟩
      · exact Or.inr hnew
    | false =>
      rw [altLoop_cons_neg rng obs a rest i acc b hq] at h
      exact ih (i + 1) acc b kv h

theorem altLoop_all_skip (rng : Rng) (obs : Nat → Nat) :
    ∀ (rest : List String) (i : Nat) (acc : DiscoveredAlleles) (b : Bool),
    (∀ a, a ∈ rest → qualifiesDNA (strToUpper a) = false) →
    altLoop rng obs i rest acc b = (acc, b) := by
  intro rest
  induction rest with
  | nil => intro i acc b _; rfl
  | cons a rest ih =>
    intro i acc b h
    rw [altLoop_cons_neg rng obs a rest i acc b (h a (List.mem_cons_self a rest))]
    exact ih (i + 1) acc b (fun x hx => h x (List.mem_cons_of_mem a hx))

theorem altFind_not_qual (rng : Rng) (obs : Nat → Nat) (s : String)
    (hs : qualifiesDNA s = false) :
    ∀ (rest : List String) (i : Nat), altFind rng obs i rest ⟨rng, s⟩ = none := by
  intro rest
  induction rest with
  | nil => intro i; rfl
  | cons a rest ih =>
    intro i
    rw [altFind_cons_neg rng obs a rest i _ (fun hh => by
      have hsa : strToUpper a = s := congrArg Allele.dna hh.2
      rw [hsa, hs] at hh
      exact Bool.noConfusion hh.1)]
    exact ih (i + 1)

theorem altFind_not_mem (rng : Rng) (obs : Nat → Nat) (s : String) :
    ∀ (rest : List String) (i : Nat),
    (∀ a, a ∈ rest → strToUpper a ≠ s) → altFind rng obs i rest ⟨rng, s⟩ = none := by
  intro rest
  induction rest with
  | nil => intro i _; rfl
  | cons a rest ih =>
    intro i h
    rw [altFind_cons_neg rng obs a rest i _ (fun hh =>
      h a (List.mem_cons_self a rest) (congrArg Allele.dna hh.2))]
    exact ih (i + 1) (fun x hx => h x (List.mem_cons_of_mem a hx))

theorem altFind_nodup_get (rng : Rng) (obs : Nat → Nat) :
    ∀ (rest : List String) (j : Nat) (hj : j < rest.length) (i : Nat),
    (rest.map strToUpper).Nodup →
    qualifiesDNA (strToUpper (rest.get ⟨j, hj⟩)) = true →
    altFind rng obs i rest ⟨rng, strToUpper (rest.get ⟨j, hj⟩)⟩ =
      some ⟨false, obs (i + j)⟩ := by
  intro rest
  induction rest with
  | nil => intro j hj; exact absurd hj (by simp)
  | cons a rest ih =>
    intro j hj i hnd hq
    cases j with
    | zero =>
      simp only [List.get] at hq ⊢
      rw [altFind_cons_pos rng obs a rest i _ ⟨hq, rfl⟩]
      rfl
    | succ j' =>
      simp only [List.get] at hq ⊢
      have hj' : j' < rest.length := by
        simp only [List.length_cons] at hj
        omega
      have hne : strToUpper a ≠ strToUpper (rest.get ⟨j', hj'⟩) := by
        intro he
        have hmem : strToUpper (rest.get ⟨j', hj'⟩) ∈ rest.map strToUpper :=
          List.mem_map_of_mem strToUpper (List.get_mem rest j' hj')
        rw [← he] at hmem
        exact (List.nodup_cons.mp hnd).1 hmem
      rw [altFind_cons_neg rng obs a rest i _ (fun hh =>
        hne (congrArg Allele.dna hh.2))]
      rw [ih j' hj' (i + 1) (List.nodup_cons.mp hnd).2 hq]
      have harith : i + 1 + j' = i + (j' + 1) := by omega
      rw [harith]

theorem altLoop_preserve (rng : Rng) (obs : Nat → Nat) (rest : List String) (i : Nat)
    (acc : DiscoveredAlleles) (b : Bool) (k : Allele) (w : DAInfo)
    (h : lookupA acc k = some w) :
    lookupA (altLoop rng obs i rest acc b).1 k = some w := by
  rw [altLoop_lookup rng obs rest i acc b k, h]
  rfl

/-! ### `processRecord` characterization -/

theorem processRecord_ok (d : String) (qpos : Rng) (dsals : DiscoveredAlleles)
    (rec : BcfRecord) (href : qualifiesDNA (strToUpper rec.ref) = true) :
    processRecord d qpos dsals rec = Except.ok
      (if (altLoop rec.pos (obsCounts rec) 1 rec.alts dsals false).2 then
         dalsInsert (altLoop rec.pos (obsCounts rec) 1 rec.alts dsals false).1
           ⟨rec.pos, strToUpper rec.ref⟩ ⟨true, obsCounts rec 0⟩
       else (altLoop rec.pos (obsCounts rec) 1 rec.alts dsals false).1) := by
  simp only [processRecord]
  rw [if_pos href]

theorem processRecord_err (d : String) (qpos : Rng) (dsals : DiscoveredAlleles)
    (rec : BcfRecord) (href : qualifiesDNA (strToUpper rec.ref) = false) :
    processRecord d qpos dsals rec =
      Except.error (DiscErr.invalidRef d (strToUpper rec.ref) qpos) := by
  simp only [processRecord]
  rw [if_neg (by simp [href])]

/-- Claim C4 (amended): within one dataset, a record's allele contribution
is inserted with `std::map::insert` semantics — once an allele is bound in
the per-dataset accumulator, later records of the same dataset never change
that binding (no summing happens at this level; summing is done only by
`merge_discovered_alleles` across datasets). -/
theorem dataset_accumulator_first_wins (d : String) (qpos : Rng) :
    ∀ (recs : List BcfRecord) (m : DiscoveredAlleles) (k : Allele) (w : DAInfo),
    lookupA m k = some w →
    ∀ D, recs.foldlM (fun dsals rec => processRecord d qpos dsals rec) m = Except.ok D →
    lookupA D k = some w := by
  intro recs
  induction recs with
  | nil =>
    intro m k w h D hD
    simp only [List.foldlM_nil] at hD
    have : m = D := Except.ok.inj hD
    rw [← this]
    exact h
  | cons rec recs ih =>
    intro m k w h D hD
    rw [List.foldlM_cons] at hD
    cases hpr : processRecord d qpos m rec with
    | error e =>
      rw [hpr] at hD
      exact Except.noConfusion hD
    | ok m1 =>
      rw [hpr] at hD
      have hm1 : lookupA m1 k = some w := by
        cases href : qualifiesDNA (strToUpper rec.ref) with
        | false =>
          rw [processRecord_err d qpos m rec href] at hpr
          exact Except.noConfusion hpr
        | true =>
          rw [processRecord_ok d qpos m rec href] at hpr
          have hfold : lookupA (altLoop rec.pos (obsCounts rec) 1 rec.alts m false).1 k =
              some w := altLoop_preserve rec.pos (obsCounts rec) rec.alts 1 m false k w h
          rw [← Except.ok.inj hpr]
          by_cases hb : (altLoop rec.pos (obsCounts rec) 1 rec.alts m false).2 = true
          · rw [if_pos hb]
            exact lookupA_insert_preserve _ _ _ _ _ hfold
          · rw [if_neg hb]
            exact hfold
      exact ih m1 k w hm1 D hD

/-- Claim C4, counterexample to the claim as stated: records `recX` and
`recY2` of the same dataset both discover allele (rngX, C), with tallies 1
and 2; the claim says the per-dataset accumulator must hold the sum 3, but
the accumulator keeps the first record's tally 1 (`std::map::insert` does
not combine). -/
theorem dataset_accumulator_not_summed_counterexample :
    processDataset "d1" rngX [recX, recY2] =
      Except.ok [(⟨rngX, "C"⟩, ⟨false, 1⟩), (⟨rngX, "A"⟩, ⟨true, 1⟩)] ∧
    ¬ (lookupA [(⟨rngX, "C"⟩, ⟨false, 1⟩), (⟨rngX, "A"⟩, ⟨true, 1⟩)] ⟨rngX, "C"⟩ =
        some ⟨false, 1 + 2⟩) :=
  ⟨by decide, by decide⟩

/-- Closed witness for `dataset_accumulator_first_wins`: the accumulator
`ansC4` already binds (rngX, C) with count 99; after processing `recX`
(which tallies C with count 1) the binding still has count 99. -/
theorem dataset_accumulator_first_wins_witness :
    lookupA [(⟨rngX, "C"⟩, ⟨false, 99⟩), (⟨rngX, "A"⟩, ⟨true, 1⟩)] ⟨rngX, "C"⟩ =
      some ⟨false, 99⟩ :=
  dataset_accumulator_first_wins "d1" rngX [recX] ansC4 ⟨rngX, "C"⟩ ⟨false, 99⟩
    (by decide) [(⟨rngX, "C"⟩, ⟨false, 99⟩), (⟨rngX, "A"⟩, ⟨true, 1⟩)] (by decide)

/-- Claim C6: in a successfully processed record (starting from an empty
per-dataset accumulator, with pairwise-distinct uppercased alt sequences),
an alt allele appears in the discovered set — with `is_ref = false` and its
tallied count — iff its uppercased sequence is non-empty and pure
A/C/G/T; and every entry of the discovered set has a non-empty pure-DNA
sequence, so a symbolic alt is never included. -/
theorem discover_alt_dna_filter (d : String) (qpos : Rng) (rec : BcfRecord)
    (D : DiscoveredAlleles)
    (hnd : (rec.alts.map strToUpper).Nodup)
    (hres : processRecord d qpos [] rec = Except.ok D) :
    (∀ j (hj : j < rec.alts.length),
        (qualifiesDNA (strToUpper (rec.alts.get ⟨j, hj⟩)) = true ↔
          lookupA D ⟨rec.pos, strToUpper (rec.alts.get ⟨j, hj⟩)⟩ =
            some ⟨false, obsCounts rec (j + 1)⟩)) ∧
    (∀ kv, kv ∈ D → 0 < kv.1.dna.length ∧ is_dna kv.1.dna = true) := by
  cases href : qualifiesDNA (strToUpper rec.ref) with
  | false =>
    rw [processRecord_err d qpos [] rec href] at hres
    exact Except.noConfusion hres
  | true =>
    rw [processRecord_ok d qpos [] rec href] at hres
    have hD := Except.ok.inj hres
    constructor
    · intro j hj
      constructor
      · intro hq
        have hfold : lookupA (altLoop rec.pos (obsCounts rec) 1 rec.alts [] false).1
            ⟨rec.pos, strToUpper (rec.alts.get ⟨j, hj⟩)⟩ =
            some ⟨false, obsCounts rec (1 + j)⟩ := by
          rw [altLoop_lookup rec.pos (obsCounts rec) rec.alts 1 [] false _]
          have := altFind_nodup_get rec.pos (obsCounts rec) rec.alts j hj 1 hnd hq
          rw [this]
          rfl
        have hflag : (altLoop rec.pos (obsCounts rec) 1 rec.alts [] false).2 = true := by
          rw [altLoop_flag rec.pos (obsCounts rec) rec.alts 1 [] false]
          simp only [Bool.false_or]
          exact List.any_eq_true.mpr ⟨rec.alts.get ⟨j, hj⟩, List.get_mem rec.alts j hj, hq⟩
        rw [← hD, if_pos hflag]
        rw [Nat.add_comm 1 j] at hfold
        exact lookupA_insert_preserve _ _ _ _ _ hfold
      · intro hl
        by_contra hq
        have hq' : qualifiesDNA (strToUpper (rec.alts.get ⟨j, hj⟩)) = false := by
          cases hqq : qualifiesDNA (strToUpper (rec.alts.get ⟨j, hj⟩)) with
          | false => rfl
          | true => exact absurd hqq hq
        have hfold : lookupA (altLoop rec.pos (obsCounts rec) 1 rec.alts [] false).1
            ⟨rec.pos, strToUpper (rec.alts.get ⟨j, hj⟩)⟩ = none := by
          rw [altLoop_lookup rec.pos (obsCounts rec) rec.alts 1 [] false _]
          rw [altFind_not_qual rec.pos (obsCounts rec) _ hq' rec.alts 1]
          rfl
        have hne : Allele.mk rec.pos (strToUpper rec.ref) ≠
            Allele.mk rec.pos (strToUpper (rec.alts.get ⟨j, hj⟩)) := by
          intro he
          have : strToUpper rec.ref = strToUpper (rec.alts.get ⟨j, hj⟩) :=
            congrArg Allele.dna he
          rw [← this] at hq'
          rw [href] at hq'
          exact Bool.noConfusion hq'
        have hnone : lookupA D ⟨rec.pos, strToUpper (rec.alts.get ⟨j, hj⟩)⟩ = none := by
          rw [← hD]
          by_cases hb : (altLoop rec.pos (obsCounts rec) 1 rec.alts [] false).2 = true
          · rw [if_pos hb, lookupA_insert_ne _ _ _ _ (fun hh => hne hh.symm)]
            exact hfold
          · rw [if_neg hb]
            exact hfold
        rw [hnone] at hl
        exact Option.noConfusion hl
    · intro kv hkv
      have hkv' : kv ∈ (if (altLoop rec.pos (obsCounts rec) 1 rec.alts [] false).2 then
          dalsInsert (altLoop rec.pos (obsCounts rec) 1 rec.alts [] false).1
            ⟨rec.pos, strToUpper rec.ref⟩ ⟨true, obsCounts rec 0⟩
        else (altLoop rec.pos (obsCounts rec) 1 rec.alts [] false).1) := by
        rw [hD]; exact hkv
      have hqual : qualifiesDNA kv.1.dna = true := by
        by_cases hb : (altLoop rec.pos (obsCounts rec) 1 rec.alts [] false).2 = true
        · rw [if_pos hb] at hkv'
          rcases mem_dalsInsert _ _ _ kv hkv' with hm | he
          · rcases altLoop_mem rec.pos (obsCounts rec) rec.alts 1 [] false kv hm with
              hnil | hq
            · exact absurd hnil (List.not_mem_nil kv)
            · exact hq.1
          · rw [he]
            exact href
        · rw [if_neg hb] at hkv'
          rcases altLoop_mem rec.pos (obsCounts rec) rec.alts 1 [] false kv hkv' with
            hnil | hq
          · exact absurd hnil (List.not_mem_nil kv)
          · exact hq.1
      unfold qualifiesDNA at hqual
      rw [Bool.and_eq_true] at hqual
      exact ⟨of_decide_eq_true hqual.1, hqual.2⟩

/-- Closed witness for `discover_alt_dna_filter`: record `rec6` (ref A,
alts C and the symbolic NON_REF placeholder, one sample calling (0,1)):
the qualifying alt C is discovered with count 1 and the symbolic alt is
excluded. -/
theorem discover_alt_dna_filter_witness :
    (∀ j (hj : j < rec6.alts.length),
        (qualifiesDNA (strToUpper (rec6.alts.get ⟨j, hj⟩)) = true ↔
          lookupA [(⟨rngX, "C"⟩, ⟨false, 1⟩), (⟨rngX, "A"⟩, ⟨true, 1⟩)]
              ⟨rec6.pos, strToUpper (rec6.alts.get ⟨j, hj⟩)⟩ =
            some ⟨false, obsCounts rec6 (j + 1)⟩)) ∧
    (∀ kv, kv ∈ ([(⟨rngX, "C"⟩, ⟨false, 1⟩), (⟨rngX, "A"⟩, ⟨true, 1⟩)] : DiscoveredAlleles) →
        0 < kv.1.dna.length ∧ is_dna kv.1.dna = true) :=
  discover_alt_dna_filter "d1" rngX rec6
    [(⟨rngX, "C"⟩, ⟨false, 1⟩), (⟨rngX, "A"⟩, ⟨true, 1⟩)] (by decide) (by decide)

/-- Claim C7: per-record reference handling.  (a) If the uppercased
reference fails the non-empty-DNA check, the record fails immediately with
an invalid-reference error naming the dataset, the malformed (uppercased)
sequence and the query position, whatever the accumulator and the alts.
(b) If the reference passes and some alt qualified (and the reference
sequence does not collide with an alt sequence), the reference is
registered with `is_ref = true` and its tally.  (c) If the reference passes
but no alt qualified, nothing at all is registered for the record. -/
theorem discover_ref_allele_handling (d : String) (qpos : Rng) (rec : BcfRecord) :
    (qualifiesDNA (strToUpper rec.ref) = false →
      ∀ dsals, processRecord d qpos dsals rec =
        Except.error (DiscErr.invalidRef d (strToUpper rec.ref) qpos)) ∧
    (qualifiesDNA (strToUpper rec.ref) = true →
      (∃ a, a ∈ rec.alts ∧ qualifiesDNA (strToUpper a) = true) →
      (∀ a, a ∈ rec.alts → strToUpper a ≠ strToUpper rec.ref) →
      ∀ D, processRecord d qpos [] rec = Except.ok D →
        lookupA D ⟨rec.pos, strToUpper rec.ref⟩ = some ⟨true, obsCounts rec 0⟩) ∧
    (qualifiesDNA (strToUpper rec.ref) = true →
      (∀ a, a ∈ rec.alts → qualifiesDNA (strToUpper a) = false) →
      processRecord d qpos [] rec = Except.ok []) := by
  refine ⟨?_, ?_, ?_⟩
  · intro href dsals
    exact processRecord_err d qpos dsals rec href
  · intro href hex hnc D hres
    rw [processRecord_ok d qpos [] rec href] at hres
    have hflag : (altLoop rec.pos (obsCounts rec) 1 rec.alts [] false).2 = true := by
      rw [altLoop_flag rec.pos (obsCounts rec) rec.alts 1 [] false]
      simp only [Bool.false_or]
      obtain ⟨a, ha, hqa⟩ := hex
      exact List.any_eq_true.mpr ⟨a, ha, hqa⟩
    rw [if_pos hflag] at hres
    have hfold : lookupA (altLoop rec.pos (obsCounts rec) 1 rec.alts [] false).1
        ⟨rec.pos, strToUpper rec.ref⟩ = none := by
      rw [altLoop_lookup rec.pos (obsCounts rec) rec.alts 1 [] false _]
      rw [altFind_not_mem rec.pos (obsCounts rec) (strToUpper rec.ref) rec.alts 1 hnc]
      rfl
    rw [← Except.ok.inj hres]
    exact lookupA_insert_fresh _ _ _ hfold
  · intro href hall
    rw [processRecord_ok d qpos [] rec href]
    rw [altLoop_all_skip rec.pos (obsCounts rec) rec.alts 1 [] false hall]
    rfl

/-- Closed witness for `discover_ref_allele_handling`, exercising all three
branches on concrete records: (a) `rec7a` (reference N) fails with the
invalid-reference error; (b) `recX` (ref A, alt C) registers the reference
with `is_ref = true` and tally 1; (c) `rec7c` (ref A, only a symbolic alt)
registers nothing. -/
theorem discover_ref_allele_handling_witness :
    processRecord "d1" rngX [] rec7a =
      Except.error (DiscErr.invalidRef "d1" (strToUpper rec7a.ref) rngX) ∧
    lookupA [(⟨rngX, "C"⟩, ⟨false, 1⟩), (⟨rngX, "A"⟩, ⟨true, 1⟩)]
        ⟨recX.pos, strToUpper recX.ref⟩ = some ⟨true, obsCounts recX 0⟩ ∧
    processRecord "d1" rngX [] rec7c = Except.ok [] :=
  ⟨(discover_ref_allele_handling "d1" rngX rec7a).1 (by decide) [],
   (discover_ref_allele_handling "d1" rngX recX).2.1 (by decide)
     ⟨"C", by decide, by decide⟩ (by decide)
     [(⟨rngX, "C"⟩, ⟨false, 1⟩), (⟨rngX, "A"⟩, ⟨true, 1⟩)] (by decide),
   (discover_ref_allele_handling "d1" rngX rec7c).2.2 (by decide) (by decide)⟩

/-! ### Hard-call tally characterization -/

theorem countCall_cons (e : GTEntry) (l : List GTEntry) (al : Nat) :
    countCall (e :: l) al =
      (if e = GTEntry.call ((al : Int)) then 1 else 0) + countCall l al := by
  unfold countCall
  rw [List.filter_cons]
  by_cases he : e = GTEntry.call ((al : Int))
  · simp [he, Nat.add_comm]
  · simp [he]

theorem countCall_append (l1 l2 : List GTEntry) (al : Nat) :
    countCall (l1 ++ l2) al = countCall l1 al + countCall l2 al := by
  unfold countCall
  rw [List.filter_append, List.length_append]

theorem countCall_flatten :
    ∀ (ls : List (List GTEntry)) (al : Nat),
    countCall ls.flatten al = (ls.map (fun l => countCall l al)).sum := by
  intro ls
  induction ls with
  | nil => intro al; rfl
  | cons x xs ih =>
    intro al
    rw [List.flatten_cons, countCall_append, ih al]
    simp

theorem gtFold_char (n : Nat) :
    ∀ (l : List GTEntry) (f : Nat → Nat) (al : Nat), al < n →
    (l.foldl (gtStep n) f) al = f al + countCall l al := by
  intro l
  induction l with
  | nil =>
    intro f al h
    simp [countCall]
  | cons e rest ih =>
    intro f al h
    cases e with
    | vecEnd =>
      have h1 : (GTEntry.vecEnd :: rest).foldl (gtStep n) f = rest.foldl (gtStep n) f := rfl
      rw [h1, ih f al h, countCall_cons]
      simp
    | call a =>
      have h1 : (GTEntry.call a :: rest).foldl (gtStep n) f =
          rest.foldl (gtStep n) (gtStep n f (GTEntry.call a)) := rfl
      rw [h1, ih (gtStep n f (GTEntry.call a)) al h, countCall_cons]
      by_cases hin : 0 ≤ a ∧ a < (n : Int)
      · have h2 : gtStep n f (GTEntry.call a) = upd f a.toNat (f a.toNat + 1) := by
          simp only [gtStep]
          rw [if_pos hin]
        rw [h2]
        by_cases ha : a = ((al : Int))
        · have hat : a.toNat = al := by omega
          rw [if_pos (by rw [ha])]
          unfold upd
          rw [if_pos hat.symm, hat]
          omega
        · have hat : ¬ (al = a.toNat) := by omega
          rw [if_neg (fun hh => ha (GTEntry.call.inj hh))]
          unfold upd
          rw [if_neg hat]
          omega
      · have h2 : gtStep n f (GTEntry.call a) = f := by
          simp only [gtStep]
          rw [if_neg hin]
        rw [h2]
        have hne : ¬ (GTEntry.call a = GTEntry.call ((al : Int))) := by
          intro hh
          have ha : a = ((al : Int)) := GTEntry.call.inj hh
          apply hin
          omega
        rw [if_neg hne]
        omega

theorem obsCounts_eq_countCall (rec : BcfRecord) (al : Nat) (h : al < rec.n_allele) :
    obsCounts rec al = countCall rec.gtFlat al := by
  unfold obsCounts
  rw [gtFold_char rec.n_allele rec.gtFlat (fun _ => 0) al h]
  omega

/-- Claim C8: in the per-record tally, each genotype entry that is a call
of an allele index inside `[0, n_allele)` contributes exactly one to that
allele's observation count (`obsCounts` equals the number of matching call
entries), and sentinel or missing entries contribute nothing; concretely,
for record `rec8` — reference A, one alt C, two diploid samples with hard
calls (0,1) and (1,1) — discovery reports A with `is_ref = true` and count
1, and C with `is_ref = false` and count 3. -/
theorem discover_observation_counting :
    (∀ (rec : BcfRecord) (al : Nat), al < rec.n_allele →
        obsCounts rec al = countCall rec.gtFlat al) ∧
    processRecord "d1" rngX [] rec8 =
      Except.ok [(⟨rngX, "C"⟩, ⟨false, 3⟩), (⟨rngX, "A"⟩, ⟨true, 1⟩)] :=
  ⟨fun rec al h => obsCounts_eq_countCall rec al h, by decide⟩

/-- Closed witness for `discover_observation_counting`: the count of allele
1 (the alt C) in `rec8` is its number of called copies. -/
theorem discover_observation_counting_witness :
    obsCounts rec8 1 = countCall rec8.gtFlat 1 :=
  discover_observation_counting.1 rec8 1 (by decide)

/-- Claim C10: the per-record tally counts the hard calls of every sample
present in the record — `obsCounts` equals the sum of the per-sample call
counts over the full sample list, with no filtering by the resolved sample
set — and the result of `discover_alleles` depends only on the datasets
component of the sampleset resolution, not on the resolved sample names. -/
theorem discover_counts_all_samples
    (resolve1 resolve2 : String → Except DiscErr (List String × List String))
    (fetch : String → Rng → Except DiscErr (List BcfRecord))
    (ss : String) (qpos : Rng) (ans0 : DiscoveredAlleles)
    (smp1 smp2 ds : List String)
    (h1 : resolve1 ss = Except.ok (smp1, ds))
    (h2 : resolve2 ss = Except.ok (smp2, ds)) :
    discover_alleles resolve1 fetch ss qpos ans0 =
      discover_alleles resolve2 fetch ss qpos ans0 ∧
    (∀ (rec : BcfRecord) (al : Nat), al < rec.n_allele →
        obsCounts rec al = (rec.samples.map (fun sc => countCall sc.2 al)).sum) := by
  constructor
  · unfold discover_alleles
    rw [h1, h2]
  · intro rec al h
    rw [obsCounts_eq_countCall rec al h]
    unfold BcfRecord.gtFlat
    rw [countCall_flatten (rec.samples.map Prod.snd) al, List.map_map]
    rfl

/-- Closed witness for `discover_counts_all_samples`: two resolutions with
the same dataset list but different sample lists give the same discovery
result. -/
theorem discover_counts_all_samples_witness :
    discover_alleles resolveA fetchX "ss" rngX [] =
      discover_alleles resolveB fetchX "ss" rngX [] ∧
    (∀ (rec : BcfRecord) (al : Nat), al < rec.n_allele →
        obsCounts rec al = (rec.samples.map (fun sc => countCall sc.2 al)).sum) :=
  discover_counts_all_samples resolveA resolveB fetchX "ss" rngX []
    ["s1"] ["s1", "s2", "s3"] ["d1"] rfl rfl

/-! ### Post-merge reference check -/

theorem refcheckGo_cons (ans : DiscoveredAlleles) (rng : Rng) (rest : List Rng) :
    refcheckGo ans (rng :: rest) =
      (if (refSeqsAt ans rng).length > 1 then
         some (DiscErr.inconsistentRef rng (refSeqsAt ans rng))
       else if (refSeqsAt ans rng).length = 0 then some (DiscErr.noRef rng)
       else refcheckGo ans rest) := by
  simp only [refcheckGo]

theorem refcheckGo_all_one (ans : DiscoveredAlleles) :
    ∀ l, (∀ r, r ∈ l → (refSeqsAt ans r).length = 1) → refcheckGo ans l = none := by
  intro l
  induction l with
  | nil => intro _; rfl
  | cons rng rest ih =>
    intro h
    have h1 := h rng (List.mem_cons_self rng rest)
    rw [refcheckGo_cons, if_neg (by omega), if_neg (by omega)]
    exact ih (fun r hr => h r (List.mem_cons_of_mem rng hr))

theorem refcheckGo_offender (ans : DiscoveredAlleles) (r : Rng) :
    ∀ l, r ∈ l → (∀ r2, r2 ∈ l → r2 ≠ r → (refSeqsAt ans r2).length = 1) →
    ((refSeqsAt ans r).length > 1 →
        refcheckGo ans l = some (DiscErr.inconsistentRef r (refSeqsAt ans r))) ∧
    ((refSeqsAt ans r).length = 0 → refcheckGo ans l = some (DiscErr.noRef r)) := by
  intro l
  induction l with
  | nil => intro hr; exact absurd hr (List.not_mem_nil r)
  | cons x rest ih =>
    intro hr hothers
    by_cases hx : x = r
    · subst hx
      constructor
      · intro hgt
        rw [refcheckGo_cons, if_pos hgt]
      · intro h0
        rw [refcheckGo_cons, if_neg (by omega), if_pos h0]
    · have hx1 := hothers x (List.mem_cons_self x rest) hx
      have hr' : r ∈ rest := by
        rcases List.mem_cons.mp hr with he | hm
        · exact absurd he.symm hx
        · exact hm
      rw [refcheckGo_cons, if_neg (by omega), if_neg (by omega)]
      exact ih hr' (fun r2 h2 => hothers r2 (List.mem_cons_of_mem x h2))

theorem mem_checkRanges (ans : DiscoveredAlleles) (r : Rng) :
    r ∈ List.insertionSort Rng.le (rangesOf ans).dedup ↔ r ∈ rangesOf ans := by
  rw [(List.perm_insertionSort Rng.le (rangesOf ans).dedup).mem_iff, List.mem_dedup]

theorem refSeqsAt_pos_mem (ans : DiscoveredAlleles) (r : Rng)
    (h : 0 < (refSeqsAt ans r).length) : r ∈ rangesOf ans := by
  unfold refSeqsAt at h
  obtain ⟨s, hs⟩ := List.exists_mem_of_length_pos h
  obtain ⟨kv, hkv, _⟩ := List.mem_map.mp hs
  have hkv' := List.mem_filter.mp hkv
  have hpos : kv.1.pos = r := by
    have := hkv'.2
    rw [Bool.and_eq_true] at this
    exact of_decide_eq_true this.1
  unfold rangesOf
  exact List.mem_map.mpr ⟨kv, hkv'.1, hpos⟩

/-- Claim C5: after all datasets are merged, `discover_alleles` groups the
accumulated alleles by range and checks each range's `is_ref` sequences: a
range with more than one distinct `is_ref` sequence (every other range
being consistent) yields a reference-inconsistency error naming the range
and the conflicting sequences; a range with none yields a
missing-reference error naming the range; if every range carries exactly
one, the call returns the accumulated set successfully. -/
theorem discover_postmerge_refcheck
    (fetch : String → Rng → Except DiscErr (List BcfRecord)) (qpos : Rng)
    (ans : DiscoveredAlleles) (r : Rng) :
    (((refSeqsAt ans r).length > 1 ∧
        (∀ r2, r2 ∈ rangesOf ans → r2 ≠ r → (refSeqsAt ans r2).length = 1)) →
      discoverLoop fetch qpos [] ans =
        (some (DiscErr.inconsistentRef r (refSeqsAt ans r)), ans)) ∧
    ((r ∈ rangesOf ans ∧ (refSeqsAt ans r).length = 0 ∧
        (∀ r2, r2 ∈ rangesOf ans → r2 ≠ r → (refSeqsAt ans r2).length = 1)) →
      discoverLoop fetch qpos [] ans = (some (DiscErr.noRef r), ans)) ∧
    ((∀ r2, r2 ∈ rangesOf ans → (refSeqsAt ans r2).length = 1) →
      discoverLoop fetch qpos [] ans = (none, ans)) := by
  have hL : discoverLoop fetch qpos [] ans = (refcheck ans, ans) := rfl
  refine ⟨?_, ?_, ?_⟩
  · intro hh
    have hmem : r ∈ List.insertionSort Rng.le (rangesOf ans).dedup :=
      (mem_checkRanges ans r).mpr (refSeqsAt_pos_mem ans r (by omega))
    have hoff := refcheckGo_offender ans r _ hmem
      (fun r2 h2 => hh.2 r2 ((mem_checkRanges ans r2).mp h2))
    rw [hL]
    unfold refcheck
    rw [hoff.1 hh.1]
  · intro hh
    have hmem : r ∈ List.insertionSort Rng.le (rangesOf ans).dedup :=
      (mem_checkRanges ans r).mpr hh.1
    have hoff := refcheckGo_offender ans r _ hmem
      (fun r2 h2 => hh.2.2 r2 ((mem_checkRanges ans r2).mp h2))
    rw [hL]
    unfold refcheck
    rw [hoff.2 hh.2.1]
  · intro hh
    rw [hL]
    unfold refcheck
    rw [refcheckGo_all_one ans _ (fun r2 h2 => hh r2 ((mem_checkRanges ans r2).mp h2))]

/-- Closed witness for `discover_postmerge_refcheck` on three concrete
accumulated sets: two is_ref sequences at a range, none, and exactly
one. -/
theorem discover_postmerge_refcheck_witness :
    discoverLoop fetchX rngX [] ansMulti =
      (some (DiscErr.inconsistentRef rngX (refSeqsAt ansMulti rngX)), ansMulti) ∧
    discoverLoop fetchX rngX [] ansNoRef = (some (DiscErr.noRef rngX), ansNoRef) ∧
    discoverLoop fetchX rngX [] ansGood = (none, ansGood) :=
  ⟨(discover_postmerge_refcheck fetchX rngX ansMulti rngX).1 (by decide),
   (discover_postmerge_refcheck fetchX rngX ansNoRef rngX).2.1 (by decide),
   (discover_postmerge_refcheck fetchX rngX ansGood rngX).2.2 (by decide)⟩

/-! ### Abort-at-first-error behaviour of the dataset loop -/

theorem discoverLoop_cons_fetch_err
    (fetch : String → Rng → Except DiscErr (List BcfRecord)) (qpos : Rng)
    (d : String) (ds : List String) (ans : DiscoveredAlleles) (e : DiscErr)
    (h : fetch d qpos = Except.error e) :
    discoverLoop fetch qpos (d :: ds) ans = (some e, ans) := by
  simp only [discoverLoop]
  rw [h]

theorem discoverLoop_cons_proc_err
    (fetch : String → Rng → Except DiscErr (List BcfRecord)) (qpos : Rng)
    (d : String) (ds : List String) (ans : DiscoveredAlleles)
    (recs : List BcfRecord) (e : DiscErr)
    (hf : fetch d qpos = Except.ok recs)
    (hp : processDataset d qpos recs = Except.error e) :
    discoverLoop fetch qpos (d :: ds) ans = (some e, ans) := by
  simp only [discoverLoop, hf, hp]

theorem discoverLoop_cons_ok
    (fetch : String → Rng → Except DiscErr (List BcfRecord)) (qpos : Rng)
    (d : String) (ds : List String) (ans : DiscoveredAlleles)
    (recs : List BcfRecord) (dsals : DiscoveredAlleles)
    (hf : fetch d qpos = Except.ok recs)
    (hp : processDataset d qpos recs = Except.ok dsals) :
    discoverLoop fetch qpos (d :: ds) ans =
      discoverLoop fetch qpos ds (merge_discovered_alleles dsals ans) := by
  simp only [discoverLoop, hf, hp]

/-- Claim C3 (amended): `discover_alleles` aborts at the first failing
dataset — whether it fails at the storage fetch or while its records are
processed (e.g. an invalid reference) — and returns exactly that failure;
the failing dataset and the datasets after it contribute nothing — the
out-parameter `ans` at that point holds precisely the merge of the
datasets fully processed before the failure (which remains caller-visible,
see the counterexample). -/
theorem discover_aborts_at_first_error
    (fetch : String → Rng → Except DiscErr (List BcfRecord)) (qpos : Rng) :
    ∀ (pre : List String) (bad : String) (post : List String)
      (ans0 : DiscoveredAlleles) (e : DiscErr),
    (∀ d0, d0 ∈ pre → ∃ recs dsals, fetch d0 qpos = Except.ok recs ∧
        processDataset d0 qpos recs = Except.ok dsals) →
    (fetch bad qpos = Except.error e ∨
      (∃ recs, fetch bad qpos = Except.ok recs ∧
        processDataset bad qpos recs = Except.error e)) →
    discoverLoop fetch qpos (pre ++ bad :: post) ans0 =
      (some e, (discoverLoop fetch qpos pre ans0).2) := by
  intro pre
  induction pre with
  | nil =>
    intro bad post ans0 e _ hbad
    rw [List.nil_append]
    rcases hbad with hferr | ⟨recs, hfok, hperr⟩
    · rw [discoverLoop_cons_fetch_err fetch qpos bad post ans0 e hferr]
      rfl
    · rw [discoverLoop_cons_proc_err fetch qpos bad post ans0 recs e hfok hperr]
      rfl
  | cons d pre ih =>
    intro bad post ans0 e hpre hbad
    obtain ⟨recs, dsals, hf, hp⟩ := hpre d (List.mem_cons_self d pre)
    rw [List.cons_append,
        discoverLoop_cons_ok fetch qpos d (pre ++ bad :: post) ans0 recs dsals hf hp,
        discoverLoop_cons_ok fetch qpos d pre ans0 recs dsals hf hp]
    exact ih bad post (merge_discovered_alleles dsals ans0) e
      (fun d0 hd0 => hpre d0 (List.mem_cons_of_mem d hd0)) hbad

/-- Claim C3, counterexample to the claim as stated: with datasets d1
(one clean record) and d2 (fetch fails), `discover_alleles` returns the
storage error of d2 while the caller-visible out-parameter `ans` holds
d1's fully merged contribution — a partial `DiscoveredAlleleSet` is
visible to the caller on failure. -/
theorem discover_partial_result_counterexample :
    (discover_alleles resolveX fetchX "ss" rngX []).1 = some (DiscErr.storage "d2") ∧
    (discover_alleles resolveX fetchX "ss" rngX []).2 =
      [(⟨rngX, "C"⟩, ⟨false, 1⟩), (⟨rngX, "A"⟩, ⟨true, 1⟩)] ∧
    (discover_alleles resolveX fetchX "ss" rngX []).2 ≠ [] :=
  ⟨by decide, by decide, by decide⟩

/-- Closed witness for `discover_aborts_at_first_error`, exercising both
failure modes: dataset d1 processes cleanly and d2 fails to fetch (storage
failure), and under `fetchY` dataset d1 processes cleanly while d3 fetches
fine but fails record processing with the invalid-reference error; in both
cases the loop returns that first failure with the out-parameter as after
d1 alone. -/
theorem discover_aborts_at_first_error_witness :
    discoverLoop fetchX rngX (["d1"] ++ "d2" :: []) [] =
      (some (DiscErr.storage "d2"), (discoverLoop fetchX rngX ["d1"] []).2) ∧
    discoverLoop fetchY rngX (["d1"] ++ "d3" :: []) [] =
      (some (DiscErr.invalidRef "d3" "N" rngX), (discoverLoop fetchY rngX ["d1"] []).2) :=
  ⟨discover_aborts_at_first_error fetchX rngX ["d1"] "d2" [] [] (DiscErr.storage "d2")
    (by
      intro d0 hd0
      simp at hd0
      subst hd0
      exact ⟨[recX], [(⟨rngX, "C"⟩, ⟨false, 1⟩), (⟨rngX, "A"⟩, ⟨true, 1⟩)],
        by decide, by decide⟩)
    (Or.inl (by decide)),
   discover_aborts_at_first_error fetchY rngX ["d1"] "d3" [] []
    (DiscErr.invalidRef "d3" "N" rngX)
    (by
      intro d0 hd0
      simp at hd0
      subst hd0
      exact ⟨[recX], [(⟨rngX, "C"⟩, ⟨false, 1⟩), (⟨rngX, "A"⟩, ⟨true, 1⟩)],
        by decide, by decide⟩)
    (Or.inr ⟨[rec7a], by decide, by decide⟩)⟩

end GLnexus
